import Mathlib

/-!
# Verification of the perception-engine audio pipeline

Shallow embedding of the audio capture / speech-segmentation /
asynchronous-transcription core of the perception engine
(`AudioCaptureEngine.cpp`, `AsyncWhisperQueue.cpp`, `SileroVAD.cpp`),
together with proofs of the specified properties.

Samples are modelled as rationals (exact arithmetic stands in for IEEE
float); buffers are Lean lists; every stateful routine is embedded as an
explicit state-passing function on a state structure mirroring the C++
member fields.
-/

namespace PerceptionEngine

/-! ## Configuration constants

From `AudioCaptureEngine.h` (`SAMPLE_RATE`, `VAD_CHUNK_MS`,
`MAX_BUFFER_SAMPLES`) and the local constants of
`AudioCaptureEngine::ProcessingThread`. -/

/-- `SAMPLE_RATE = 16000` (`AudioCaptureEngine.h`). -/
def SAMPLE_RATE : ℕ := 16000

/-- `VAD_CHUNK_MS = 32` (`AudioCaptureEngine.h`). -/
def VAD_CHUNK_MS : ℕ := 32

/-- `MAX_BUFFER_SAMPLES = 16000 * 30` (`AudioCaptureEngine.h`). -/
def MAX_BUFFER_SAMPLES : ℕ := 16000 * 30

/-- `VAD_WINDOW_SAMPLES = (SAMPLE_RATE * VAD_CHUNK_MS) / 1000` (ProcessingThread). -/
def VAD_WINDOW_SAMPLES : ℕ := (SAMPLE_RATE * VAD_CHUNK_MS) / 1000

/-- `SILENCE_THRESHOLD_MS = 300` (ProcessingThread). -/
def SILENCE_THRESHOLD_MS : ℕ := 300

/-- `MIN_SPEECH_MS = 300` (ProcessingThread). -/
def MIN_SPEECH_MS : ℕ := 300

/-- `MAX_SPEECH_SEC = 30` (ProcessingThread). -/
def MAX_SPEECH_SEC : ℕ := 30

/-- `SILENCE_THRESHOLD_SAMPLES = (SAMPLE_RATE * SILENCE_THRESHOLD_MS) / 1000`. -/
def SILENCE_THRESHOLD_SAMPLES : ℕ := (SAMPLE_RATE * SILENCE_THRESHOLD_MS) / 1000

/-- `MIN_SPEECH_SAMPLES = (SAMPLE_RATE * MIN_SPEECH_MS) / 1000`. -/
def MIN_SPEECH_SAMPLES : ℕ := (SAMPLE_RATE * MIN_SPEECH_MS) / 1000

/-- `MAX_SPEECH_SAMPLES = SAMPLE_RATE * MAX_SPEECH_SEC`. -/
def MAX_SPEECH_SAMPLES : ℕ := SAMPLE_RATE * MAX_SPEECH_SEC

/-! ## Capture buffer (`AudioCaptureEngine::AddMicrophoneData`)

```cpp
microphoneBuffer.insert(microphoneBuffer.end(), data.begin(), data.end());
if (microphoneBuffer.size() > MAX_BUFFER_SAMPLES) {
    microphoneBuffer.erase(
        microphoneBuffer.begin(),
        microphoneBuffer.begin() + (microphoneBuffer.size() - MAX_BUFFER_SAMPLES));
}
```
-/

/-- One `AddMicrophoneData` call: append, then erase the oldest excess
samples whenever the length exceeds `MAX_BUFFER_SAMPLES`. -/
def AddMicrophoneData (buffer data : List ℚ) : List ℚ :=
  if (buffer ++ data).length > MAX_BUFFER_SAMPLES then
    (buffer ++ data).drop ((buffer ++ data).length - MAX_BUFFER_SAMPLES)
  else
    buffer ++ data

/-! ## Resampling (`AudioCaptureEngine::ResampleAudio`)

```cpp
if (inputSampleRate == outputSampleRate) return input;
float ratio = (float)inputSampleRate / outputSampleRate;
size_t outputSize = (size_t)(input.size() / ratio);
for (size_t i = 0; i < outputSize; ++i) {
    float srcIndex = i * ratio;
    size_t index0 = (size_t)srcIndex;
    size_t index1 = (index0 + 1 < input.size()) ? index0 + 1 : input.size() - 1;
    float fraction = srcIndex - index0;
    output.push_back(input[index0] * (1.0f - fraction) + input[index1] * fraction);
}
```
Float arithmetic is modelled exactly over `ℚ`. -/

/-- Linear resampler, embedded over exact rational arithmetic. -/
def ResampleAudio (input : List ℚ) (inputSampleRate outputSampleRate : ℕ) : List ℚ :=
  if inputSampleRate = outputSampleRate then input
  else
    let ratio : ℚ := (inputSampleRate : ℚ) / (outputSampleRate : ℚ)
    let outputSize : ℕ := (⌊(input.length : ℚ) / ratio⌋).toNat
    (List.range outputSize).map (fun (i : ℕ) =>
      let srcIndex : ℚ := (i : ℚ) * ratio
      let index0 : ℕ := (⌊srcIndex⌋).toNat
      let index1 : ℕ := if index0 + 1 < input.length then index0 + 1 else input.length - 1
      let fraction : ℚ := srcIndex - (index0 : ℚ)
      input.getD index0 0 * (1 - fraction) + input.getD index1 0 * fraction)

/-! ## Speech segmentation state machine (`AudioCaptureEngine::ProcessingThread`)

One loop iteration: take the capture-buffer snapshot, skip the tick when it
is empty or shorter than one VAD window, classify the trailing window, and
run the `SILENCE`/`SPEAKING` state machine, finalizing at the
`transcribe_now` label.  The snapshot contents and the classifier verdict
are the per-tick inputs; the enqueued `TranscriptionJob` (the argument of
`asyncWhisperQueue->QueueAudio`), if any, is the per-tick output. -/

/-- `enum SpeechState { SILENCE, SPEAKING }` (ProcessingThread). -/
inductive SpeechState : Type
  | SILENCE : SpeechState
  | SPEAKING : SpeechState
deriving DecidableEq, Repr

/-- The mutable locals of the ProcessingThread loop. -/
structure SegmenterState where
  currentState : SpeechState
  speechBuffer : List ℚ
  silenceDurationSamples : ℕ
  speechDurationSamples : ℕ
deriving DecidableEq, Repr

/-- Initial values of the ProcessingThread locals. -/
def initSegmenter : SegmenterState :=
  { currentState := .SILENCE
    speechBuffer := []
    silenceDurationSamples := 0
    speechDurationSamples := 0 }

/-- The `transcribe_now` finalize block: queue the utterance iff it has at
least `MIN_SPEECH_SAMPLES` samples, then reset every local. -/
def finalizeUtterance (speechBuffer : List ℚ) : SegmenterState × Option (List ℚ) :=
  ({ currentState := .SILENCE
     speechBuffer := []
     silenceDurationSamples := 0
     speechDurationSamples := 0 },
   if MIN_SPEECH_SAMPLES ≤ speechBuffer.length then some speechBuffer else none)

/-- One iteration of the ProcessingThread loop body.  `micBuffer` is the
snapshot returned by `GetMicrophoneBuffer()` at this tick (the capture
buffer is cleared whenever the snapshot is consumed, so the next tick's
snapshot is fresh audio) and `isSpeech` is the verdict of
`IsSpeechDetected` on the trailing window. -/
def processTick (s : SegmenterState) (micBuffer : List ℚ) (isSpeech : Bool) :
    SegmenterState × Option (List ℚ) :=
  if micBuffer.isEmpty then (s, none)
  else if micBuffer.length < VAD_WINDOW_SAMPLES then (s, none)
  else
    match s.currentState with
    | .SILENCE =>
        if isSpeech then
          ({ currentState := .SPEAKING
             speechBuffer := micBuffer
             silenceDurationSamples := 0
             speechDurationSamples := micBuffer.length }, none)
        else (s, none)
    | .SPEAKING =>
        if isSpeech then
          let speechBuffer := s.speechBuffer ++ micBuffer
          if MAX_SPEECH_SAMPLES ≤ speechBuffer.length then
            finalizeUtterance speechBuffer
          else
            ({ currentState := .SPEAKING
               speechBuffer := speechBuffer
               silenceDurationSamples := 0
               speechDurationSamples := s.speechDurationSamples + micBuffer.length }, none)
        else
          let speechBuffer := s.speechBuffer ++ micBuffer
          let silenceDurationSamples := s.silenceDurationSamples + micBuffer.length
          if SILENCE_THRESHOLD_SAMPLES ≤ silenceDurationSamples then
            finalizeUtterance speechBuffer
          else
            ({ currentState := .SPEAKING
               speechBuffer := speechBuffer
               silenceDurationSamples := silenceDurationSamples
               speechDurationSamples := s.speechDurationSamples }, none)

/-- Run the segmenter over a list of (snapshot, classifier verdict) ticks,
keeping only the final state. -/
def runMixed (s : SegmenterState) (ts : List (List ℚ × Bool)) : SegmenterState :=
  ts.foldl (fun st t => (processTick st t.1 t.2).1) s

/-- Run the segmenter over snapshots on which the classifier always reports
speech. -/
def runSpeech (s : SegmenterState) (ms : List (List ℚ)) : SegmenterState :=
  ms.foldl (fun st m => (processTick st m true).1) s

/-! ## Asynchronous transcription queue (`AsyncWhisperQueue.cpp`)

Shared state: the atomic `running` flag, the audio-job FIFO
(`audioQueue`), the results FIFO (`resultsQueue`), and the processed
counter.  (`lastLatencyMs` is wall-clock time and is outside the model.)
The worker thread is modelled by a phase — blocked in `cv.wait` at the top
of the loop, transcribing a dequeued job, or exited — and the concurrent
system by a labelled small-step function: a label is enabled iff the step
returns `some`.  The transcription collaborator is a parameter
`transcribe`. -/

/-- Phase of the `WorkerThread` loop. -/
inductive WorkerPhase : Type
  | waiting : WorkerPhase
  | busy : List ℚ → WorkerPhase
  | exited : WorkerPhase
deriving DecidableEq

/-- Shared state of an `AsyncWhisperQueue`. -/
structure QueueState where
  running : Bool
  audioQueue : List (List ℚ)
  resultsQueue : List String
  processedCount : ℕ
  workerPhase : WorkerPhase
deriving DecidableEq

/-- `QueueAudio`: appends to the FIFO and notifies; it never inspects
`running`, so it is accepted during and after shutdown. -/
def QueueAudio (st : QueueState) (audio : List ℚ) : QueueState :=
  { st with audioQueue := st.audioQueue ++ [audio] }

/-- `GetLatestResult`: non-blocking; returns `""` on an empty results FIFO,
otherwise pops and returns the front (the oldest queued result). -/
def GetLatestResult (st : QueueState) : String × QueueState :=
  match st.resultsQueue with
  | [] => ("", st)
  | r :: rest => (r, { st with resultsQueue := rest })

/-- Labels of the interleaving semantics: a producer enqueue, the
destructor raising the stop signal, the worker waking from `cv.wait`
(running the `if (!running) break;` / dequeue decision), and the worker
finishing `TranscribeAudio` for the job it holds (running the
result-handling block and re-testing the `while (running)` condition). -/
inductive QueueLabel : Type
  | enqueue : List ℚ → QueueLabel
  | stop : QueueLabel
  | workerWake : QueueLabel
  | workerFinish : QueueLabel
deriving DecidableEq

/-- One labelled step; `none` means the label is not enabled (e.g. the
worker stays blocked in `cv.wait` while the queue is empty and `running`
holds). -/
def queueStep (transcribe : List ℚ → String) (l : QueueLabel) (st : QueueState) :
    Option QueueState :=
  match l with
  | .enqueue audio => some (QueueAudio st audio)
  | .stop => some { st with running := false }
  | .workerWake =>
      match st.workerPhase with
      | .waiting =>
          if st.running = false then some { st with workerPhase := .exited }
          else
            match st.audioQueue with
            | [] => none
            | job :: rest =>
                some { st with audioQueue := rest, workerPhase := .busy job }
      | _ => none
  | .workerFinish =>
      match st.workerPhase with
      | .busy job =>
          let transcription := transcribe job
          let st' :=
            if transcription = "" then st
            else { st with resultsQueue := st.resultsQueue ++ [transcription]
                           processedCount := st.processedCount + 1 }
          some { st' with workerPhase := if st.running then .waiting else .exited }
      | _ => none

/-- Run a sequence of labels; fails if any label is not enabled. -/
def runQueueTrace (transcribe : List ℚ → String) (ls : List QueueLabel)
    (st : QueueState) : Option QueueState :=
  match ls with
  | [] => some st
  | l :: rest =>
      match queueStep transcribe l st with
      | none => none
      | some st1 => runQueueTrace transcribe rest st1

/-- The jobs enqueued along a trace, in order. -/
def enqueuedJobs (ls : List QueueLabel) : List (List ℚ) :=
  ls.filterMap (fun l =>
    match l with
    | .enqueue audio => some audio
    | _ => none)

/-! ## Neural voice-activity classifier (`SileroVAD.cpp`,
`AudioCaptureEngine::IsSpeechDetected`)

The ONNX network itself is an external collaborator; it is a parameter
`process : state -> window -> state x probability` threading the LSTM state
exactly as `SileroVAD::Process` copies `stateN` back into `state`. -/

/-- `SILERO_CHUNK_SIZE = 512` (`IsSpeechDetected`; `SileroVAD.h CHUNK_SIZE`). -/
def SILERO_CHUNK_SIZE : ℕ := 512

/-- The Silero LSTM state has `2 * 1 * 128` floats (`SileroVAD` constructor:
`state.resize(2 * 1 * 128, 0.0f)`). -/
def SILERO_STATE_SIZE : ℕ := 2 * 1 * 128

/-- `SileroVAD::Reset`: `std::fill(state.begin(), state.end(), 0.0f)` — every
entry of the recurrent state becomes zero, the length is unchanged. -/
def SileroReset (state : List ℚ) : List ℚ :=
  List.replicate state.length 0

/-- The consecutive complete 512-sample sub-windows of a chunk
(`for (i = 0; i + 512 <= size; i += 512)`); a shorter tail is ignored. -/
def sileroChunks (audio : List ℚ) : List (List ℚ) :=
  if h : SILERO_CHUNK_SIZE ≤ audio.length then
    audio.take SILERO_CHUNK_SIZE :: sileroChunks (audio.drop SILERO_CHUNK_SIZE)
  else []
termination_by audio.length
decreasing_by
  simp only [List.length_drop]
  have hpos : 0 < SILERO_CHUNK_SIZE := by norm_num [SILERO_CHUNK_SIZE]
  omega

/-- `AudioCaptureEngine::IsSpeechDetected`, neural path: evaluate every
512-sample sub-window through the stateful collaborator, report the maximum
probability, and compare against the 0.5 threshold. -/
def IsSpeechDetectedNeural (process : List ℚ → List ℚ → List ℚ × ℚ)
    (vadState : List ℚ) (audioChunk : List ℚ) : List ℚ × Bool :=
  let r := (sileroChunks audioChunk).foldl
    (fun (acc : List ℚ × ℚ) chunk =>
      let pr := process acc.1 chunk
      (pr.1, max acc.2 pr.2))
    (vadState, 0)
  (r.1, decide ((1 : ℚ) / 2 < r.2))

/-- One ProcessingThread iteration with the neural classifier's recurrent
state made explicit: the VAD window is the most recent `VAD_WINDOW_SAMPLES`
of the snapshot, classification threads the LSTM state, and the state
machine runs as in `processTick`.  The finalize block never touches the
classifier state (there is no `sileroVAD->Reset()` call in the loop). -/
def processTickNeural (process : List ℚ → List ℚ → List ℚ × ℚ)
    (vadState : List ℚ) (s : SegmenterState) (micBuffer : List ℚ) :
    List ℚ × (SegmenterState × Option (List ℚ)) :=
  if micBuffer.isEmpty then (vadState, (s, none))
  else if micBuffer.length < VAD_WINDOW_SAMPLES then (vadState, (s, none))
  else
    let vadWindow := micBuffer.drop (micBuffer.length - VAD_WINDOW_SAMPLES)
    let r := IsSpeechDetectedNeural process vadState vadWindow
    (r.1, processTick s micBuffer r.2)

/-! ## Sample-format conversion (`AudioCaptureEngine::ConvertPCMToFloat`)

The raw capture block is a byte sequence; the device format decides the
decoding branch.  A format that is neither float32 nor 16-bit PCM matches
no branch and `floatData` stays empty. -/

/-- `WAVE_FORMAT_IEEE_FLOAT` = 3 (Windows wave format tag). -/
def WAVE_FORMAT_IEEE_FLOAT : ℕ := 3

/-- The fields of `WAVEFORMATEX` the conversion reads. -/
structure WaveFormat where
  wFormatTag : ℕ
  nChannels : ℕ
  nSamplesPerSec : ℕ
  wBitsPerSample : ℕ
deriving DecidableEq

/-- IEEE-754 binary32 value of a 32-bit pattern, as an exact rational;
NaN/infinity patterns (exponent 255) have no rational counterpart and map
to 0. -/
def decodeFloat32 (w : ℕ) : ℚ :=
  let sign : ℕ := w / 2 ^ 31 % 2
  let expo : ℕ := w / 2 ^ 23 % 2 ^ 8
  let frac : ℕ := w % 2 ^ 23
  if expo = 255 then 0
  else
    let mag : ℚ :=
      if expo = 0 then (frac : ℚ) / 2 ^ 149
      else (((2 ^ 23 + frac : ℕ) : ℚ) * 2 ^ expo) / 2 ^ 150
    if sign = 1 then -mag else mag

/-- Little-endian 32-bit word number `i` of the byte block. -/
def word32At (bytes : List ℕ) (i : ℕ) : ℕ :=
  bytes.getD (4 * i) 0 + 256 * bytes.getD (4 * i + 1) 0
    + 65536 * bytes.getD (4 * i + 2) 0 + 16777216 * bytes.getD (4 * i + 3) 0

/-- Little-endian signed 16-bit sample number `i` of the byte block
(two's complement). -/
def int16At (bytes : List ℕ) (i : ℕ) : ℤ :=
  let w := bytes.getD (2 * i) 0 + 256 * bytes.getD (2 * i + 1) 0
  if 32768 ≤ w then (w : ℤ) - 65536 else (w : ℤ)

/-- `ConvertPCMToFloat`: float32 or 16-bit PCM decode, downmix to mono by
averaging, then resample to `SAMPLE_RATE` when the device rate differs.
Any other format leaves `floatData` empty. -/
def ConvertPCMToFloat (fmt : WaveFormat) (pcmData : List ℕ) (numFrames : ℕ) :
    List ℚ :=
  let floatData : List ℚ :=
    if fmt.wFormatTag = WAVE_FORMAT_IEEE_FLOAT ∨ fmt.wBitsPerSample = 32 then
      if fmt.nChannels = 1 then
        (List.range numFrames).map (fun i => decodeFloat32 (word32At pcmData i))
      else
        (List.range numFrames).map (fun i =>
          ((List.range fmt.nChannels).map (fun ch =>
            decodeFloat32 (word32At pcmData (i * fmt.nChannels + ch)))).sum
            / (fmt.nChannels : ℚ))
    else if fmt.wBitsPerSample = 16 then
      if fmt.nChannels = 1 then
        (List.range numFrames).map (fun i => (int16At pcmData i : ℚ) / 32768)
      else
        (List.range numFrames).map (fun i =>
          ((List.range fmt.nChannels).map (fun ch =>
            (int16At pcmData (i * fmt.nChannels + ch) : ℚ) / 32768)).sum
            / (fmt.nChannels : ℚ))
    else []
  if fmt.nSamplesPerSec ≠ SAMPLE_RATE then
    ResampleAudio floatData fmt.nSamplesPerSec SAMPLE_RATE
  else floatData

/-! ## Theorems -/

/-- Floor of rational length divided by a rate ratio is the Nat division
`L * outRate / inRate`. -/
theorem floor_div_ratio (L iR oR : ℕ) :
    (⌊(L : ℚ) / ((iR : ℚ) / (oR : ℚ))⌋).toNat = L * oR / iR := by
  rw [div_div_eq_mul_div]
  have hcast : (L : ℚ) * (oR : ℚ) = ((L * oR : ℕ) : ℚ) := by push_cast; ring
  rw [hcast, Int.floor_toNat, Nat.floor_div_nat, Nat.floor_natCast]

/-- **C2.** After every `AddMicrophoneData` append the capture buffer holds at
most `MAX_BUFFER_SAMPLES` samples; the result is always exactly the suffix of
the appended sequence obtained by dropping the oldest excess samples (FIFO
eviction, relative order preserved), so when an append would exceed the bound
exactly the most recent `MAX_BUFFER_SAMPLES` samples remain.  Stated
unconditionally: the drop count `length - MAX_BUFFER_SAMPLES` is zero (and the
buffer is kept whole) whenever the bound is not exceeded. -/
theorem addMicrophoneData_bounded_fifo (buffer data : List ℚ) :
    (AddMicrophoneData buffer data).length ≤ MAX_BUFFER_SAMPLES ∧
    AddMicrophoneData buffer data =
      (buffer ++ data).drop ((buffer ++ data).length - MAX_BUFFER_SAMPLES) ∧
    (AddMicrophoneData buffer data).length =
      min (buffer ++ data).length MAX_BUFFER_SAMPLES := by
  unfold AddMicrophoneData
  by_cases h : (buffer ++ data).length > MAX_BUFFER_SAMPLES
  · rw [if_pos h]
    refine ⟨?_, rfl, ?_⟩ <;> simp only [List.length_drop] <;> omega
  · rw [if_neg h]
    push_neg at h
    refine ⟨h, ?_, by omega⟩
    rw [Nat.sub_eq_zero_of_le h, List.drop_zero]

/-- Length of the resampled output when the rates differ. -/
theorem resampleAudio_length (input : List ℚ) (inputSampleRate outputSampleRate : ℕ)
    (h : inputSampleRate ≠ outputSampleRate) :
    (ResampleAudio input inputSampleRate outputSampleRate).length
      = (⌊(input.length : ℚ) / ((inputSampleRate : ℚ) / (outputSampleRate : ℚ))⌋).toNat := by
  unfold ResampleAudio
  rw [if_neg h]
  simp

/-- Element formula of the resampled output when the rates differ. -/
theorem resampleAudio_getD (input : List ℚ) (inputSampleRate outputSampleRate : ℕ)
    (h : inputSampleRate ≠ outputSampleRate) (i : ℕ)
    (hi : i < (⌊(input.length : ℚ) / ((inputSampleRate : ℚ) / (outputSampleRate : ℚ))⌋).toNat) :
    (ResampleAudio input inputSampleRate outputSampleRate).getD i 0 =
      input.getD (⌊(i : ℚ) * ((inputSampleRate : ℚ) / (outputSampleRate : ℚ))⌋).toNat 0
          * (1 - ((i : ℚ) * ((inputSampleRate : ℚ) / (outputSampleRate : ℚ))
              - ((⌊(i : ℚ) * ((inputSampleRate : ℚ) / (outputSampleRate : ℚ))⌋).toNat : ℚ)))
        + input.getD
            (if (⌊(i : ℚ) * ((inputSampleRate : ℚ) / (outputSampleRate : ℚ))⌋).toNat + 1
                  < input.length then
                (⌊(i : ℚ) * ((inputSampleRate : ℚ) / (outputSampleRate : ℚ))⌋).toNat + 1
              else input.length - 1) 0
          * ((i : ℚ) * ((inputSampleRate : ℚ) / (outputSampleRate : ℚ))
              - ((⌊(i : ℚ) * ((inputSampleRate : ℚ) / (outputSampleRate : ℚ))⌋).toNat : ℚ)) := by
  have hlt : i < (ResampleAudio input inputSampleRate outputSampleRate).length := by
    rw [resampleAudio_length input inputSampleRate outputSampleRate h]
    exact hi
  rw [List.getD_eq_getElem _ _ hlt]
  unfold ResampleAudio
  simp only [if_neg h, List.getElem_map, List.getElem_range]

/-- **C4.** Resampling is the identity when the rates match; otherwise the
output has length `floor(inputLength / ratio)` (with `ratio =
sourceRate/targetRate`, i.e. `inputLength * targetRate / sourceRate`), and
output sample `i` is the linear interpolation between the two source samples
bracketing position `i * ratio`, the upper index clamped to the last valid
source index. -/
theorem resampleAudio_linear_spec (input : List ℚ) (inputSampleRate outputSampleRate : ℕ)
    (hne : input ≠ []) (hin : 0 < inputSampleRate) (hout : 0 < outputSampleRate) :
    (inputSampleRate = outputSampleRate →
      ResampleAudio input inputSampleRate outputSampleRate = input) ∧
    (inputSampleRate ≠ outputSampleRate →
      (ResampleAudio input inputSampleRate outputSampleRate).length
          = input.length * outputSampleRate / inputSampleRate ∧
      ∀ i, i < input.length * outputSampleRate / inputSampleRate →
        (ResampleAudio input inputSampleRate outputSampleRate).getD i 0 =
          input.getD (⌊(i : ℚ) * inputSampleRate / outputSampleRate⌋).toNat 0
              * (1 - ((i : ℚ) * inputSampleRate / outputSampleRate
                  - ((⌊(i : ℚ) * inputSampleRate / outputSampleRate⌋).toNat : ℚ)))
            + input.getD
                (min ((⌊(i : ℚ) * inputSampleRate / outputSampleRate⌋).toNat + 1)
                  (input.length - 1)) 0
              * ((i : ℚ) * inputSampleRate / outputSampleRate
                  - ((⌊(i : ℚ) * inputSampleRate / outputSampleRate⌋).toNat : ℚ))) := by
  have hlen0 : input.length ≠ 0 := by
    simpa [List.length_eq_zero] using hne
  constructor
  · intro h
    unfold ResampleAudio
    rw [if_pos h]
  · intro h
    have hfloor : ((⌊(input.length : ℚ) / ((inputSampleRate : ℚ) / (outputSampleRate : ℚ))⌋).toNat)
        = input.length * outputSampleRate / inputSampleRate :=
      floor_div_ratio input.length inputSampleRate outputSampleRate
    have hlen := resampleAudio_length input inputSampleRate outputSampleRate h
    refine ⟨by rw [hlen, hfloor], ?_⟩
    intro i hi
    rw [resampleAudio_getD input inputSampleRate outputSampleRate h i
      (by rw [hfloor]; exact hi)]
    rw [← mul_div_assoc]
    have hidx : (if (⌊(i : ℚ) * inputSampleRate / outputSampleRate⌋).toNat + 1
          < input.length then
        (⌊(i : ℚ) * inputSampleRate / outputSampleRate⌋).toNat + 1
      else input.length - 1)
        = min ((⌊(i : ℚ) * inputSampleRate / outputSampleRate⌋).toNat + 1)
            (input.length - 1) := by
      split <;> omega
    rw [hidx]

/-- Step lemma: in `SILENCE`, a consumed snapshot classified as speech makes
the segmenter enter `SPEAKING` with the full snapshot as utterance buffer. -/
theorem step_entry (s : SegmenterState) (m : List ℚ)
    (hs : s.currentState = .SILENCE) (hw : VAD_WINDOW_SAMPLES ≤ m.length) :
    processTick s m true =
      ({ currentState := .SPEAKING
         speechBuffer := m
         silenceDurationSamples := 0
         speechDurationSamples := m.length }, none) := by
  have hne : m.isEmpty = false := by
    cases m with
    | nil => simp [VAD_WINDOW_SAMPLES, SAMPLE_RATE, VAD_CHUNK_MS] at hw
    | cons a l => rfl
  have hw' : ¬ (m.length < VAD_WINDOW_SAMPLES) := Nat.not_lt.mpr hw
  simp only [processTick, hne, Bool.false_eq_true, if_false, hw', ite_false, hs,
    ite_true]

/-- Step lemma: in `SPEAKING`, a consumed speech snapshot that leaves the
utterance below the cap appends it and stays `SPEAKING`. -/
theorem step_stay (s : SegmenterState) (m : List ℚ)
    (hs : s.currentState = .SPEAKING) (hw : VAD_WINDOW_SAMPLES ≤ m.length)
    (hlt : (s.speechBuffer ++ m).length < MAX_SPEECH_SAMPLES) :
    processTick s m true =
      ({ currentState := .SPEAKING
         speechBuffer := s.speechBuffer ++ m
         silenceDurationSamples := 0
         speechDurationSamples := s.speechDurationSamples + m.length }, none) := by
  have hne : m.isEmpty = false := by
    cases m with
    | nil => simp [VAD_WINDOW_SAMPLES, SAMPLE_RATE, VAD_CHUNK_MS] at hw
    | cons a l => rfl
  have hw' : ¬ (m.length < VAD_WINDOW_SAMPLES) := Nat.not_lt.mpr hw
  have hlt' : ¬ (MAX_SPEECH_SAMPLES ≤ (s.speechBuffer ++ m).length) := Nat.not_le.mpr hlt
  simp only [processTick, hne, Bool.false_eq_true, if_false, hw', ite_false, hs,
    ite_true, hlt']

/-- Step lemma: in `SPEAKING`, a consumed silence snapshot below the trailing
silence threshold appends it (silence is retained inside the utterance) and
stays `SPEAKING`. -/
theorem step_silence_stay (s : SegmenterState) (m : List ℚ)
    (hs : s.currentState = .SPEAKING) (hw : VAD_WINDOW_SAMPLES ≤ m.length)
    (hlt : s.silenceDurationSamples + m.length < SILENCE_THRESHOLD_SAMPLES) :
    processTick s m false =
      ({ currentState := .SPEAKING
         speechBuffer := s.speechBuffer ++ m
         silenceDurationSamples := s.silenceDurationSamples + m.length
         speechDurationSamples := s.speechDurationSamples }, none) := by
  have hne : m.isEmpty = false := by
    cases m with
    | nil => simp [VAD_WINDOW_SAMPLES, SAMPLE_RATE, VAD_CHUNK_MS] at hw
    | cons a l => rfl
  have hw' : ¬ (m.length < VAD_WINDOW_SAMPLES) := Nat.not_lt.mpr hw
  have hlt' : ¬ (SILENCE_THRESHOLD_SAMPLES ≤ s.silenceDurationSamples + m.length) :=
    Nat.not_le.mpr hlt
  simp only [processTick, hne, Bool.false_eq_true, Bool.true_eq_false, if_false,
    hw', ite_false, hs, hlt', not_false_iff]

/-- Step lemma: in `SPEAKING`, a consumed snapshot whose trigger condition
holds (max-utterance cap on speech, trailing-silence threshold on silence)
runs the `transcribe_now` block: the utterance is queued iff it has at least
`MIN_SPEECH_SAMPLES` samples and every local is reset. -/
theorem step_finalize (s : SegmenterState) (m : List ℚ) (isSpeech : Bool)
    (hs : s.currentState = .SPEAKING) (hw : VAD_WINDOW_SAMPLES ≤ m.length)
    (htrig : (isSpeech = true ∧
        MAX_SPEECH_SAMPLES ≤ (s.speechBuffer ++ m).length) ∨
      (isSpeech = false ∧
        SILENCE_THRESHOLD_SAMPLES ≤ s.silenceDurationSamples + m.length)) :
    processTick s m isSpeech =
      ({ currentState := .SILENCE
         speechBuffer := []
         silenceDurationSamples := 0
         speechDurationSamples := 0 },
       if MIN_SPEECH_SAMPLES ≤ (s.speechBuffer ++ m).length
       then some (s.speechBuffer ++ m) else none) := by
  have hne : m.isEmpty = false := by
    cases m with
    | nil => simp [VAD_WINDOW_SAMPLES, SAMPLE_RATE, VAD_CHUNK_MS] at hw
    | cons a l => rfl
  have hw' : ¬ (m.length < VAD_WINDOW_SAMPLES) := Nat.not_lt.mpr hw
  rcases htrig with ⟨hb, hlen⟩ | ⟨hb, hlen⟩ <;> subst hb <;>
    simp only [processTick, hne, Bool.false_eq_true, if_false, hw', ite_false,
      hs, ite_true, if_pos hlen, if_neg, finalizeUtterance,
      Bool.true_eq_false, not_false_iff]

/-- Accumulation invariant: from a `SPEAKING` state with zero trailing
silence, a run of consumed speech snapshots none of whose partial sums
reaches the cap ends `SPEAKING` with exactly the concatenation appended. -/
theorem runSpeech_accumulates (ms : List (List ℚ)) : ∀ (s : SegmenterState),
    s.currentState = .SPEAKING → s.silenceDurationSamples = 0 →
    (∀ x ∈ ms, VAD_WINDOW_SAMPLES ≤ x.length) →
    (∀ p, p <+: ms → s.speechBuffer.length + ((p.map List.length).sum)
        < MAX_SPEECH_SAMPLES) →
    runSpeech s ms =
      { currentState := .SPEAKING
        speechBuffer := s.speechBuffer ++ ms.flatten
        silenceDurationSamples := 0
        speechDurationSamples := s.speechDurationSamples + (ms.map List.length).sum } := by
  induction ms with
  | nil =>
      intro s hs hsil _ _
      simp only [runSpeech, List.foldl_nil, List.flatten, List.append_nil,
        List.map_nil, List.sum_nil, Nat.add_zero]
      cases s
      simp_all
  | cons m rest ih =>
      intro s hs hsil hwin hpre
      have hm : VAD_WINDOW_SAMPLES ≤ m.length := hwin m (by simp)
      have hlt : (s.speechBuffer ++ m).length < MAX_SPEECH_SAMPLES := by
        have := hpre [m] ⟨rest, rfl⟩
        simpa [List.length_append] using this
      have hstep := step_stay s m hs hm hlt
      have hrun : runSpeech s (m :: rest) = runSpeech (processTick s m true).1 rest := rfl
      rw [hrun, hstep]
      rw [ih _ rfl rfl (fun x hx => hwin x (by simp [hx]))
        (fun p hp => by
          have := hpre (m :: p) (by
            obtain ⟨t, ht⟩ := hp
            exact ⟨t, by rw [← ht]; rfl⟩)
          simp only [List.map_cons, List.sum_cons, List.length_append] at this ⊢
          omega)]
      simp only [List.flatten, List.map_cons, List.sum_cons, List.append_assoc]
      congr 1
      omega

/-- Case split for a consumed tick in `SPEAKING`: either the segmenter stays
`SPEAKING` having appended the snapshot and emitted nothing, or it runs the
finalize block on the appended buffer. -/
theorem step_speaking_cases (s : SegmenterState) (m : List ℚ) (b : Bool)
    (hs : s.currentState = .SPEAKING) (hw : VAD_WINDOW_SAMPLES ≤ m.length) :
    ((processTick s m b).1.currentState = .SPEAKING ∧
      (processTick s m b).1.speechBuffer = s.speechBuffer ++ m ∧
      (processTick s m b).2 = none) ∨
    processTick s m b =
      ({ currentState := .SILENCE
         speechBuffer := []
         silenceDurationSamples := 0
         speechDurationSamples := 0 },
       if MIN_SPEECH_SAMPLES ≤ (s.speechBuffer ++ m).length
       then some (s.speechBuffer ++ m) else none) := by
  cases b with
  | false =>
      by_cases h : SILENCE_THRESHOLD_SAMPLES ≤ s.silenceDurationSamples + m.length
      · exact Or.inr (step_finalize s m false hs hw (Or.inr ⟨rfl, h⟩))
      · left
        rw [step_silence_stay s m hs hw (Nat.not_le.mp h)]
        exact ⟨rfl, rfl, rfl⟩
  | true =>
      by_cases h : MAX_SPEECH_SAMPLES ≤ (s.speechBuffer ++ m).length
      · exact Or.inr (step_finalize s m true hs hw (Or.inl ⟨rfl, h⟩))
      · left
        rw [step_stay s m hs hw (Nat.not_le.mp h)]
        exact ⟨rfl, rfl, rfl⟩

/-- Accumulation invariant for mixed speech/silence ticks: as long as no tick
finalizes (every prefix of the run leaves the segmenter `SPEAKING`), the
utterance buffer is exactly the starting buffer followed by every consumed
snapshot in order. -/
theorem runMixed_accumulates (ts : List (List ℚ × Bool)) : ∀ (s : SegmenterState),
    s.currentState = .SPEAKING →
    (∀ t ∈ ts, VAD_WINDOW_SAMPLES ≤ t.1.length) →
    (∀ p, p <+: ts → (runMixed s p).currentState = .SPEAKING) →
    (runMixed s ts).currentState = .SPEAKING ∧
    (runMixed s ts).speechBuffer = s.speechBuffer ++ (ts.map Prod.fst).flatten := by
  induction ts with
  | nil =>
      intro s hs _ _
      exact ⟨hs, by simp [runMixed]⟩
  | cons t rest ih =>
      intro s hs hwin hpre
      have ht : VAD_WINDOW_SAMPLES ≤ t.1.length := hwin t (by simp)
      have h1 : (runMixed s [t]).currentState = .SPEAKING :=
        hpre [t] ⟨rest, rfl⟩
      rcases step_speaking_cases s t.1 t.2 hs ht with ⟨hph, hbuf, _⟩ | heq
      · have hrun : runMixed s (t :: rest) = runMixed (processTick s t.1 t.2).1 rest := rfl
        rw [hrun]
        have hrec := ih (processTick s t.1 t.2).1 hph
          (fun x hx => hwin x (by simp [hx]))
          (fun p hp => by
            have := hpre (t :: p) (by
              obtain ⟨r, hr⟩ := hp
              exact ⟨r, by rw [← hr]; rfl⟩)
            exact this)
        refine ⟨hrec.1, ?_⟩
        rw [hrec.2, hbuf]
        simp [List.append_assoc]
      · exfalso
        have hsil : (runMixed s [t]).currentState = .SILENCE := by
          show ((processTick s t.1 t.2).1).currentState = .SILENCE
          rw [heq]
        rw [hsil] at h1
        exact SpeechState.noConfusion h1

/-- **C1.** Whenever a tick finalizes an utterance — by the trailing-silence
threshold or by the max-utterance safety valve — the utterance buffer is
submitted to the transcription queue if and only if it holds at least
`MIN_SPEECH_SAMPLES` samples (`minSpeechMs` at the target rate), otherwise it
is discarded with no job; in both cases the state returns to `SILENCE` and
the utterance buffer, trailing-silence counter and speech counter are reset. -/
theorem finalize_submits_iff_min_speech (s : SegmenterState) (micBuffer : List ℚ)
    (isSpeech : Bool)
    (hstate : s.currentState = .SPEAKING)
    (hwin : VAD_WINDOW_SAMPLES ≤ micBuffer.length)
    (htrig : (isSpeech = true ∧
        MAX_SPEECH_SAMPLES ≤ (s.speechBuffer ++ micBuffer).length) ∨
      (isSpeech = false ∧
        SILENCE_THRESHOLD_SAMPLES ≤ s.silenceDurationSamples + micBuffer.length)) :
    processTick s micBuffer isSpeech =
      ({ currentState := .SILENCE
         speechBuffer := []
         silenceDurationSamples := 0
         speechDurationSamples := 0 },
       if MIN_SPEECH_SAMPLES ≤ (s.speechBuffer ++ micBuffer).length
       then some (s.speechBuffer ++ micBuffer) else none) :=
  step_finalize s micBuffer isSpeech hstate hwin htrig

set_option maxRecDepth 8000 in
/-- Witness for C1: a silence-threshold finalization of a 1112-sample
utterance (below the 4800-sample minimum), which is discarded: no job is
queued and every local is reset. -/
theorem finalize_submits_iff_min_speech_witness :
    (({ currentState := .SPEAKING
        speechBuffer := List.replicate 600 (0 : ℚ)
        silenceDurationSamples := 4400
        speechDurationSamples := 600 } : SegmenterState).currentState = .SPEAKING ∧
      VAD_WINDOW_SAMPLES ≤ (List.replicate 512 (0 : ℚ)).length ∧
      SILENCE_THRESHOLD_SAMPLES ≤ 4400 + (List.replicate 512 (0 : ℚ)).length) ∧
    processTick
        { currentState := .SPEAKING
          speechBuffer := List.replicate 600 (0 : ℚ)
          silenceDurationSamples := 4400
          speechDurationSamples := 600 }
        (List.replicate 512 (0 : ℚ)) false =
      ({ currentState := .SILENCE
         speechBuffer := []
         silenceDurationSamples := 0
         speechDurationSamples := 0 }, none) := by
  have h1 : VAD_WINDOW_SAMPLES ≤ (List.replicate 512 (0 : ℚ)).length := by
    simp only [List.length_replicate]
    norm_num [VAD_WINDOW_SAMPLES, SAMPLE_RATE, VAD_CHUNK_MS]
  have h2 : SILENCE_THRESHOLD_SAMPLES ≤ 4400 + (List.replicate 512 (0 : ℚ)).length := by
    simp only [List.length_replicate]
    norm_num [SILENCE_THRESHOLD_SAMPLES, SAMPLE_RATE, SILENCE_THRESHOLD_MS]
  refine ⟨⟨rfl, h1, h2⟩, ?_⟩
  have key := finalize_submits_iff_min_speech
    { currentState := .SPEAKING
      speechBuffer := List.replicate 600 (0 : ℚ)
      silenceDurationSamples := 4400
      speechDurationSamples := 600 }
    (List.replicate 512 (0 : ℚ)) false rfl h1 (Or.inr ⟨rfl, h2⟩)
  rw [key, if_neg]
  simp only [List.length_append, List.length_replicate]
  norm_num [MIN_SPEECH_SAMPLES, SAMPLE_RATE, MIN_SPEECH_MS]

/-- **C3 counterexample.** When the entry snapshot alone already holds
`MAX_SPEECH_SAMPLES` samples (possible, since the capture buffer is bounded
by the equal `MAX_BUFFER_SAMPLES`), the tick at which the utterance buffer
first reaches the 30-second cap does NOT force-finalize: the segmenter
stays `SPEAKING` with no job, and finalization only happens one speech tick
later, with strictly more than `MAX_SPEECH_SAMPLES` samples. -/
theorem maxUtterance_boundary_counterexample :
    (processTick initSegmenter (List.replicate MAX_SPEECH_SAMPLES 0) true).1.speechBuffer.length
        = MAX_SPEECH_SAMPLES ∧
    (processTick initSegmenter (List.replicate MAX_SPEECH_SAMPLES 0) true).1.currentState
        = .SPEAKING ∧
    (processTick initSegmenter (List.replicate MAX_SPEECH_SAMPLES 0) true).2 = none ∧
    (processTick (processTick initSegmenter (List.replicate MAX_SPEECH_SAMPLES 0) true).1
        (List.replicate VAD_WINDOW_SAMPLES 0) true).2
      = some (List.replicate MAX_SPEECH_SAMPLES (0 : ℚ)
          ++ List.replicate VAD_WINDOW_SAMPLES 0) := by
  have hw1 : VAD_WINDOW_SAMPLES ≤ (List.replicate MAX_SPEECH_SAMPLES (0 : ℚ)).length := by
    simp only [List.length_replicate]
    norm_num [VAD_WINDOW_SAMPLES, MAX_SPEECH_SAMPLES, SAMPLE_RATE, VAD_CHUNK_MS,
      MAX_SPEECH_SEC]
  have hw2 : VAD_WINDOW_SAMPLES ≤ (List.replicate VAD_WINDOW_SAMPLES (0 : ℚ)).length := by
    simp only [List.length_replicate, le_refl]
  have hentry := step_entry initSegmenter (List.replicate MAX_SPEECH_SAMPLES 0) rfl hw1
  rw [hentry]
  refine ⟨by simp only [List.length_replicate], rfl, rfl, ?_⟩
  have hfin := step_finalize
    { currentState := .SPEAKING
      speechBuffer := List.replicate MAX_SPEECH_SAMPLES (0 : ℚ)
      silenceDurationSamples := 0
      speechDurationSamples := (List.replicate MAX_SPEECH_SAMPLES (0 : ℚ)).length }
    (List.replicate VAD_WINDOW_SAMPLES 0) true rfl hw2
    (Or.inl ⟨rfl, by
      simp only [List.length_append, List.length_replicate]
      omega⟩)
  have hmin : MIN_SPEECH_SAMPLES ≤ ((List.replicate MAX_SPEECH_SAMPLES (0 : ℚ))
      ++ List.replicate VAD_WINDOW_SAMPLES 0).length := by
    simp only [List.length_append, List.length_replicate]
    norm_num [MIN_SPEECH_SAMPLES, MAX_SPEECH_SAMPLES, VAD_WINDOW_SAMPLES,
      SAMPLE_RATE, MIN_SPEECH_MS, MAX_SPEECH_SEC, VAD_CHUNK_MS]
  rw [hfin, if_pos hmin]

/-- **C3 (amended).** In an all-speech run whose entry snapshot is below the
30-second cap, the utterance is force-finalized at the first continuation
tick whose append brings the utterance buffer's sample count to at least
`MAX_SPEECH_SAMPLES`, and at no earlier tick: every continuation tick whose
partial sum stays below the cap leaves the segmenter `SPEAKING` with the
accumulated buffer and no job, and the first crossing tick queues the whole
utterance and resets.  (The entry snapshot itself is not checked against the
cap; see the counterexample.) -/
theorem maxUtterance_finalizes_at_first_crossing (e : List ℚ) (ms : List (List ℚ))
    (m : List ℚ)
    (he : VAD_WINDOW_SAMPLES ≤ e.length)
    (hms : ∀ x ∈ ms, VAD_WINDOW_SAMPLES ≤ x.length)
    (hm : VAD_WINDOW_SAMPLES ≤ m.length)
    (hbelow : ∀ p, p <+: ms →
      e.length + ((p.map List.length).sum) < MAX_SPEECH_SAMPLES)
    (hcross : MAX_SPEECH_SAMPLES ≤ e.length + ((ms.map List.length).sum + m.length)) :
    runSpeech (processTick initSegmenter e true).1 ms =
      { currentState := .SPEAKING
        speechBuffer := e ++ ms.flatten
        silenceDurationSamples := 0
        speechDurationSamples := e.length + (ms.map List.length).sum } ∧
    processTick (runSpeech (processTick initSegmenter e true).1 ms) m true =
      ({ currentState := .SILENCE
         speechBuffer := []
         silenceDurationSamples := 0
         speechDurationSamples := 0 }, some (e ++ ms.flatten ++ m)) := by
  have hentry := step_entry initSegmenter e rfl he
  have hacc : runSpeech (processTick initSegmenter e true).1 ms =
      { currentState := .SPEAKING
        speechBuffer := e ++ ms.flatten
        silenceDurationSamples := 0
        speechDurationSamples := e.length + (ms.map List.length).sum } := by
    rw [hentry]
    exact runSpeech_accumulates ms
      { currentState := .SPEAKING
        speechBuffer := e
        silenceDurationSamples := 0
        speechDurationSamples := e.length } rfl rfl hms (fun p hp => hbelow p hp)
  refine ⟨hacc, ?_⟩
  rw [hacc]
  have hflat : (e ++ ms.flatten).length = e.length + (ms.map List.length).sum := by
    rw [List.length_append, List.length_flatten]
  have hmax : MAX_SPEECH_SAMPLES ≤ ((e ++ ms.flatten) ++ m).length := by
    rw [List.length_append, hflat]
    omega
  have hfin := step_finalize
    { currentState := .SPEAKING
      speechBuffer := e ++ ms.flatten
      silenceDurationSamples := 0
      speechDurationSamples := e.length + (ms.map List.length).sum }
    m true rfl hm (Or.inl ⟨rfl, hmax⟩)
  have hmin : MIN_SPEECH_SAMPLES ≤ MAX_SPEECH_SAMPLES := by
    norm_num [MIN_SPEECH_SAMPLES, MAX_SPEECH_SAMPLES, SAMPLE_RATE, MIN_SPEECH_MS,
      MAX_SPEECH_SEC]
  rw [hfin, if_pos (le_trans hmin hmax)]

/-- Witness for the amended C3: an entry snapshot of 479488 samples followed
by one 512-sample speech tick reaches the cap exactly and finalizes there,
queuing the 480000-sample utterance. -/
theorem maxUtterance_first_crossing_witness :
    (VAD_WINDOW_SAMPLES ≤ (List.replicate 479488 (0 : ℚ)).length ∧
      VAD_WINDOW_SAMPLES ≤ (List.replicate 512 (0 : ℚ)).length ∧
      MAX_SPEECH_SAMPLES ≤ (List.replicate 479488 (0 : ℚ)).length +
        ((([] : List (List ℚ)).map List.length).sum +
          (List.replicate 512 (0 : ℚ)).length)) ∧
    processTick
        (runSpeech (processTick initSegmenter (List.replicate 479488 0) true).1 [])
        (List.replicate 512 0) true =
      ({ currentState := .SILENCE
         speechBuffer := []
         silenceDurationSamples := 0
         speechDurationSamples := 0 },
       some (List.replicate 479488 (0 : ℚ) ++ ([] : List (List ℚ)).flatten
          ++ List.replicate 512 0)) := by
  have h1 : VAD_WINDOW_SAMPLES ≤ (List.replicate 479488 (0 : ℚ)).length := by
    rw [List.length_replicate]
    norm_num [VAD_WINDOW_SAMPLES, SAMPLE_RATE, VAD_CHUNK_MS]
  have h2 : VAD_WINDOW_SAMPLES ≤ (List.replicate 512 (0 : ℚ)).length := by
    rw [List.length_replicate]
    norm_num [VAD_WINDOW_SAMPLES, SAMPLE_RATE, VAD_CHUNK_MS]
  have h3 : MAX_SPEECH_SAMPLES ≤ (List.replicate 479488 (0 : ℚ)).length +
      ((([] : List (List ℚ)).map List.length).sum +
        (List.replicate 512 (0 : ℚ)).length) := by
    rw [List.length_replicate, List.length_replicate, List.map_nil, List.sum_nil]
    norm_num [MAX_SPEECH_SAMPLES, SAMPLE_RATE, MAX_SPEECH_SEC]
  have h4 : ∀ p, p <+: ([] : List (List ℚ)) →
      (List.replicate 479488 (0 : ℚ)).length + ((p.map List.length).sum)
        < MAX_SPEECH_SAMPLES := by
    intro p hp
    rw [List.prefix_nil.mp hp, List.length_replicate, List.map_nil, List.sum_nil]
    norm_num [MAX_SPEECH_SAMPLES, SAMPLE_RATE, MAX_SPEECH_SEC]
  have key := maxUtterance_finalizes_at_first_crossing (List.replicate 479488 0) []
      (List.replicate 512 0) h1 (by simp) h2 h4 h3
  exact ⟨⟨h1, h2, h3⟩, key.2⟩

/-- Witness for C4: a concrete 2:1 downsampling of `[1, 3]` from 32 kHz to
16 kHz, discharging the non-emptiness and positivity hypotheses. -/
theorem resampleAudio_linear_spec_witness :
    (([1, 3] : List ℚ) ≠ [] ∧ 0 < 32000 ∧ 0 < 16000) ∧
      (ResampleAudio [1, 3] 32000 16000).length = 2 * 16000 / 32000 :=
  ⟨⟨by decide, by decide, by decide⟩,
    ((resampleAudio_linear_spec [1, 3] 32000 16000 (by decide) (by decide)
      (by decide)).2 (by decide)).1⟩


/-- **C5.** From entry into `SPEAKING` until finalization, the finalized
utterance buffer is exactly the concatenation of the entry snapshot and
every consumed snapshot (speech or embedded silence) up to and including
the finalizing tick, with no sample duplicated or dropped, so its sample
count is the sum of the snapshot lengths. -/
theorem utterance_is_concatenation_of_snapshots (e f : List ℚ)
    (ts : List (List ℚ × Bool)) (b : Bool)
    (he : VAD_WINDOW_SAMPLES ≤ e.length)
    (hts : ∀ t ∈ ts, VAD_WINDOW_SAMPLES ≤ t.1.length)
    (hf : VAD_WINDOW_SAMPLES ≤ f.length)
    (hmid : ∀ p, p <+: ts →
      (runMixed (processTick initSegmenter e true).1 p).currentState = .SPEAKING)
    (hfin : (processTick (runMixed (processTick initSegmenter e true).1 ts) f b).1.currentState
      = .SILENCE) :
    (processTick (runMixed (processTick initSegmenter e true).1 ts) f b).2
        = (if MIN_SPEECH_SAMPLES ≤ (e ++ (ts.map Prod.fst).flatten ++ f).length
           then some (e ++ (ts.map Prod.fst).flatten ++ f) else none)
    ∧ (e ++ (ts.map Prod.fst).flatten ++ f).length
        = e.length + ((((ts.map Prod.fst).map List.length).sum) + f.length) := by
  have hentry := step_entry initSegmenter e rfl he
  have hs1 : (processTick initSegmenter e true).1.currentState = .SPEAKING := by
    rw [hentry]
  have hs1buf : (processTick initSegmenter e true).1.speechBuffer = e := by
    rw [hentry]
  have hinv := runMixed_accumulates ts (processTick initSegmenter e true).1 hs1 hts hmid
  rcases step_speaking_cases (runMixed (processTick initSegmenter e true).1 ts) f b
      hinv.1 hf with ⟨hph, _, _⟩ | heq
  · exfalso
    rw [hfin] at hph
    exact SpeechState.noConfusion hph
  · have hbuf : (runMixed (processTick initSegmenter e true).1 ts).speechBuffer
        = e ++ (ts.map Prod.fst).flatten := by
      rw [hinv.2, hs1buf]
    constructor
    · rw [heq, hbuf]
    · rw [List.length_append, List.length_append, List.length_flatten]
      omega

/-- Witness for C5: a 4800-sample speech entry, one embedded 512-sample
silence snapshot, and a 4800-sample silence tick that крosses the trailing
silence threshold; the queued utterance is the concatenation of all three
snapshots, 10112 samples long. -/
theorem utterance_concatenation_witness :
    (VAD_WINDOW_SAMPLES ≤ (List.replicate 4800 (0 : ℚ)).length ∧
      VAD_WINDOW_SAMPLES ≤ (List.replicate 512 (0 : ℚ)).length ∧
      (processTick
        (runMixed (processTick initSegmenter (List.replicate 4800 0) true).1
          [(List.replicate 512 0, false)])
        (List.replicate 4800 0) false).1.currentState = .SILENCE) ∧
    (processTick
        (runMixed (processTick initSegmenter (List.replicate 4800 0) true).1
          [(List.replicate 512 0, false)])
        (List.replicate 4800 0) false).2
      = some (List.replicate 4800 (0 : ℚ)
          ++ ([(List.replicate 512 (0 : ℚ), false)].map Prod.fst).flatten
          ++ List.replicate 4800 0) := by
  have h1 : VAD_WINDOW_SAMPLES ≤ (List.replicate 4800 (0 : ℚ)).length := by
    rw [List.length_replicate]
    norm_num [VAD_WINDOW_SAMPLES, SAMPLE_RATE, VAD_CHUNK_MS]
  have h2 : VAD_WINDOW_SAMPLES ≤ (List.replicate 512 (0 : ℚ)).length := by
    rw [List.length_replicate]
    norm_num [VAD_WINDOW_SAMPLES, SAMPLE_RATE, VAD_CHUNK_MS]
  have hentry := step_entry initSegmenter (List.replicate 4800 0) rfl h1
  have hstep : runMixed (processTick initSegmenter (List.replicate 4800 0) true).1
      [(List.replicate 512 0, false)]
      = { currentState := .SPEAKING
          speechBuffer := List.replicate 4800 (0 : ℚ) ++ List.replicate 512 0
          silenceDurationSamples := 0 + (List.replicate 512 (0 : ℚ)).length
          speechDurationSamples := (List.replicate 4800 (0 : ℚ)).length } := by
    show (processTick (processTick initSegmenter (List.replicate 4800 0) true).1
      (List.replicate 512 0) false).1 = _
    rw [hentry]
    rw [step_silence_stay _ _ rfl h2 (by
      rw [List.length_replicate]
      norm_num [SILENCE_THRESHOLD_SAMPLES, SAMPLE_RATE, SILENCE_THRESHOLD_MS])]
  have hmid : ∀ p, p <+: [(List.replicate 512 (0 : ℚ), false)] →
      (runMixed (processTick initSegmenter (List.replicate 4800 0) true).1 p).currentState
        = .SPEAKING := by
    intro p hp
    rcases hp with ⟨r, hr⟩
    cases p with
    | nil =>
        have hid : runMixed (processTick initSegmenter (List.replicate 4800 0) true).1
            ([] : List (List ℚ × Bool))
            = (processTick initSegmenter (List.replicate 4800 0) true).1 := rfl
        rw [hid, hentry]
    | cons a q =>
        cases q with
        | nil =>
            have ha : a = (List.replicate 512 (0 : ℚ), false) := by
              cases hr
              rfl
            subst ha
            rw [hstep]
        | cons a2 q2 =>
            exfalso
            have hlen := congrArg List.length hr
            simp only [List.length_append, List.length_cons, List.length_nil] at hlen
            omega
  have hfin : (processTick
      (runMixed (processTick initSegmenter (List.replicate 4800 0) true).1
        [(List.replicate 512 0, false)])
      (List.replicate 4800 0) false).1.currentState = .SILENCE := by
    rw [hstep]
    rw [step_finalize _ _ false rfl h1 (Or.inr ⟨rfl, by
      rw [List.length_replicate, List.length_replicate]
      norm_num [SILENCE_THRESHOLD_SAMPLES, SAMPLE_RATE, SILENCE_THRESHOLD_MS]⟩)]
  have key := utterance_is_concatenation_of_snapshots (List.replicate 4800 0)
    (List.replicate 4800 0) [(List.replicate 512 0, false)] false h1
    (by
      intro t htm
      rcases List.mem_singleton.mp htm with rfl
      exact h2)
    h1 hmid hfin
  refine ⟨⟨h1, h2, hfin⟩, ?_⟩
  have hflat : ((List.map Prod.fst [(List.replicate 512 (0 : ℚ), false)]).flatten)
      = List.replicate 512 (0 : ℚ) := by
    rw [List.map_cons, List.map_nil, List.flatten_cons, List.flatten_nil,
      List.append_nil]
  have hminlen : MIN_SPEECH_SAMPLES ≤ (List.replicate 4800 (0 : ℚ)
      ++ (List.map Prod.fst [(List.replicate 512 (0 : ℚ), false)]).flatten
      ++ List.replicate 4800 0).length := by
    rw [hflat, List.length_append, List.length_append,
      List.length_replicate, List.length_replicate]
    norm_num [MIN_SPEECH_SAMPLES, SAMPLE_RATE, MIN_SPEECH_MS]
  rw [key.1, if_pos hminlen]


/-- **C6.** For every job the worker dequeues: the dequeue removes exactly
that job from the front of the FIFO, and after `TranscribeAudio` returns,
a non-empty transcription is pushed onto the results FIFO with the
processed counter incremented by one, while an empty transcription leaves
the results FIFO and the counter unchanged; in both cases the job FIFO is
untouched by the result handling, so the job is never retried. -/
theorem worker_processes_dequeued_job (transcribe : List ℚ → String)
    (st : QueueState) (job : List ℚ) (rest : List (List ℚ))
    (hrun : st.running = true) (hph : st.workerPhase = .waiting)
    (hq : st.audioQueue = job :: rest) :
    ∃ stB, queueStep transcribe .workerWake st = some stB
      ∧ stB.workerPhase = .busy job ∧ stB.audioQueue = rest
      ∧ ∃ stF, queueStep transcribe .workerFinish stB = some stF
        ∧ stF.audioQueue = rest
        ∧ (transcribe job ≠ "" →
            stF.resultsQueue = st.resultsQueue ++ [transcribe job] ∧
            stF.processedCount = st.processedCount + 1)
        ∧ (transcribe job = "" →
            stF.resultsQueue = st.resultsQueue ∧
            stF.processedCount = st.processedCount) := by
  refine ⟨{ st with audioQueue := rest, workerPhase := .busy job }, ?_, rfl, rfl, ?_⟩
  · simp only [queueStep, hph, hrun, hq]
    rfl
  · by_cases hT : transcribe job = ""
    · refine ⟨{ st with audioQueue := rest, workerPhase := .waiting }, ?_, rfl, ?_, ?_⟩
      · simp only [queueStep, hT, if_pos, hrun, ite_true]
      · intro hne
        exact absurd hT hne
      · intro _
        exact ⟨rfl, rfl⟩
    · refine ⟨{ st with audioQueue := rest
                        resultsQueue := st.resultsQueue ++ [transcribe job]
                        processedCount := st.processedCount + 1
                        workerPhase := .waiting }, ?_, rfl, ?_, ?_⟩
      · simp only [queueStep, hT, if_neg, ite_false, hrun, ite_true]
      · intro _
        exact ⟨rfl, rfl⟩
      · intro heq
        exact absurd heq hT


/-- Witness for C6: a one-job queue whose transcription returns `"ok"`; the
result is pushed and the counter reaches 1. -/
theorem worker_processes_dequeued_job_witness :
    ((⟨true, [[1]], [], 0, .waiting⟩ : QueueState).running = true ∧
      (⟨true, [[1]], [], 0, .waiting⟩ : QueueState).workerPhase = .waiting ∧
      (⟨true, [[1]], [], 0, .waiting⟩ : QueueState).audioQueue = [1] :: []) ∧
    ∃ stB stF : QueueState,
      queueStep (fun audio => if audio.isEmpty then "" else "ok") .workerWake
          ⟨true, [[1]], [], 0, .waiting⟩ = some stB ∧
      queueStep (fun audio => if audio.isEmpty then "" else "ok") .workerFinish
          stB = some stF ∧
      stF.resultsQueue = ["ok"] ∧ stF.processedCount = 1 := by
  obtain ⟨stB, h1, h2, h3, stF, h4, h5, h6, h7⟩ :=
    worker_processes_dequeued_job (fun audio => if audio.isEmpty then "" else "ok")
      ⟨true, [[1]], [], 0, .waiting⟩ [1] [] rfl rfl rfl
  have h8 := h6 (by decide)
  refine ⟨⟨rfl, rfl, rfl⟩, stB, stF, h1, h4, ?_, ?_⟩
  · rw [h8.1]
    rfl
  · rw [h8.2]

/-- **C7.** Polling the results queue never blocks (it is a total function of
the state): on an empty results FIFO it returns the empty string and leaves
the state unchanged; otherwise it removes and returns the front of the
FIFO — the oldest completed result, not the most recent. -/
theorem getLatestResult_fifo (st : QueueState) :
    (st.resultsQueue = [] → GetLatestResult st = ("", st)) ∧
    (∀ r rest, st.resultsQueue = r :: rest →
      GetLatestResult st = (r, { st with resultsQueue := rest })) := by
  constructor
  · intro h
    simp only [GetLatestResult, h]
  · intro r rest h
    simp only [GetLatestResult, h]

/-- Witness for C7: polling a queue holding `["a", "b"]` returns the oldest
result `"a"` and leaves `["b"]`. -/
theorem getLatestResult_fifo_witness :
    ((⟨true, [], ["a", "b"], 2, .waiting⟩ : QueueState).resultsQueue = "a" :: ["b"]) ∧
    GetLatestResult ⟨true, [], ["a", "b"], 2, .waiting⟩
      = ("a", ⟨true, [], ["b"], 2, .waiting⟩) :=
  ⟨rfl, (getLatestResult_fifo ⟨true, [], ["a", "b"], 2, .waiting⟩).2 "a" ["b"] rfl⟩

/-- After the stop signal, a single enabled step never dequeues: it keeps
`running` false and changes the job FIFO only by appending enqueued jobs. -/
theorem queueStep_stopped (transcribe : List ℚ → String) (l : QueueLabel)
    (st st' : QueueState) (h : st.running = false)
    (hs : queueStep transcribe l st = some st') :
    st'.running = false ∧
    st'.audioQueue = st.audioQueue ++ enqueuedJobs [l] := by
  cases l with
  | enqueue a =>
      simp only [queueStep, Option.some.injEq] at hs
      subst hs
      simp [QueueAudio, enqueuedJobs, h, List.filterMap]
  | stop =>
      simp only [queueStep, Option.some.injEq] at hs
      subst hs
      simp [enqueuedJobs, List.filterMap]
  | workerWake =>
      cases hph : st.workerPhase with
      | waiting =>
          rw [queueStep] at hs
          simp only [hph, h, if_pos, ite_true, Option.some.injEq] at hs
          subst hs
          simp [enqueuedJobs, h, List.filterMap]
      | busy j =>
          rw [queueStep] at hs
          simp only [hph] at hs
          exact Option.noConfusion hs
      | exited =>
          rw [queueStep] at hs
          simp only [hph] at hs
          exact Option.noConfusion hs
  | workerFinish =>
      cases hph : st.workerPhase with
      | waiting =>
          rw [queueStep] at hs
          simp only [hph] at hs
          exact Option.noConfusion hs
      | busy j =>
          rw [queueStep] at hs
          simp only [hph, Option.some.injEq] at hs
          subst hs
          by_cases hT : transcribe j = "" <;>
            simp [hT, enqueuedJobs, h, List.filterMap]
      | exited =>
          rw [queueStep] at hs
          simp only [hph] at hs
          exact Option.noConfusion hs

/-- After the stop signal, an entire enabled trace keeps `running` false and
changes the job FIFO only by appending the enqueued jobs in order: no
pending job is ever dequeued or transcribed. -/
theorem runQueueTrace_stopped (transcribe : List ℚ → String) (ls : List QueueLabel) :
    ∀ (st st' : QueueState), st.running = false →
      runQueueTrace transcribe ls st = some st' →
      st'.running = false ∧ st'.audioQueue = st.audioQueue ++ enqueuedJobs ls := by
  induction ls with
  | nil =>
      intro st st' h hs
      simp only [runQueueTrace, Option.some.injEq] at hs
      subst hs
      exact ⟨h, by simp [enqueuedJobs]⟩
  | cons l rest ih =>
      intro st st' h hs
      rw [runQueueTrace] at hs
      cases hstep : queueStep transcribe l st with
      | none => rw [hstep] at hs; exact absurd hs (by simp)
      | some st1 =>
          rw [hstep] at hs
          have h1 := queueStep_stopped transcribe l st st1 h hstep
          have h2 := ih st1 st' h1.1 hs
          refine ⟨h2.1, ?_⟩
          rw [h2.2, h1.2]
          cases l <;> simp [enqueuedJobs, List.filterMap_cons, List.append_assoc]

/-- **C9.** After the stop signal is raised: (a) no enabled trace ever
dequeues a pending job — the job FIFO only grows by enqueues, and `running`
stays false; (b) a worker blocked in `cv.wait` wakes and exits without
dequeuing; (c) a worker holding an already-dequeued job completes it — a
non-empty transcription is pushed and counted, an empty one dropped — and
then exits; (d) an enqueue is still accepted (the step is enabled and
appends the job), though by (a) that job is never processed. -/
theorem shutdown_semantics (transcribe : List ℚ → String) (st : QueueState)
    (hstop : st.running = false) :
    (∀ ls st', runQueueTrace transcribe ls st = some st' →
      st'.running = false ∧ st'.audioQueue = st.audioQueue ++ enqueuedJobs ls) ∧
    (st.workerPhase = .waiting →
      queueStep transcribe .workerWake st = some { st with workerPhase := .exited }) ∧
    (∀ job, st.workerPhase = .busy job →
      ∃ stF, queueStep transcribe .workerFinish st = some stF ∧
        stF.workerPhase = .exited ∧ stF.audioQueue = st.audioQueue ∧
        (transcribe job ≠ "" →
          stF.resultsQueue = st.resultsQueue ++ [transcribe job] ∧
          stF.processedCount = st.processedCount + 1) ∧
        (transcribe job = "" →
          stF.resultsQueue = st.resultsQueue ∧
          stF.processedCount = st.processedCount)) ∧
    (∀ audio, queueStep transcribe (.enqueue audio) st
      = some { st with audioQueue := st.audioQueue ++ [audio] }) := by
  refine ⟨?_, ?_, ?_, ?_⟩
  · intro ls st' hs
    exact runQueueTrace_stopped transcribe ls st st' hstop hs
  · intro hph
    rw [queueStep]
    simp only [hph, hstop, if_pos, ite_true]
  · intro job hph
    by_cases hT : transcribe job = ""
    · refine ⟨{ st with workerPhase := .exited }, ?_, rfl, rfl, ?_, ?_⟩
      · rw [queueStep]
        simp only [hph, hT, if_pos, ite_true, hstop, Bool.false_eq_true, ite_false]
      · intro hne
        exact absurd hT hne
      · intro _
        exact ⟨rfl, rfl⟩
    · refine ⟨{ st with resultsQueue := st.resultsQueue ++ [transcribe job]
                        processedCount := st.processedCount + 1
                        workerPhase := .exited }, ?_, rfl, rfl, ?_, ?_⟩
      · rw [queueStep]
        simp only [hph, hT, if_neg, ite_false, hstop, Bool.false_eq_true,
          not_false_iff]
      · intro _
        exact ⟨rfl, rfl⟩
      · intro heq
        exact absurd heq hT
  · intro audio
    rfl

/-- Witness for C9: from a stopped state holding one pending job and a busy
worker on `[2]`, the trace enqueue-then-wake is enabled and leaves both jobs
pending, and the busy worker finishes `[2]` (pushed as `"t"`) and exits. -/
theorem shutdown_semantics_witness :
    ((⟨false, [[1]], [], 0, .waiting⟩ : QueueState).running = false ∧
      (⟨false, [[1]], [], 0, .waiting⟩ : QueueState).workerPhase = .waiting) ∧
    (∃ st', runQueueTrace (fun _ => "t") [.enqueue [5], .workerWake]
        ⟨false, [[1]], [], 0, .waiting⟩ = some st' ∧
      st'.audioQueue = [[1]] ++ enqueuedJobs [.enqueue [5], .workerWake]) ∧
    queueStep (fun _ => "t") .workerWake ⟨false, [[1]], [], 0, .waiting⟩
      = some ⟨false, [[1]], [], 0, .exited⟩ := by
  have key := shutdown_semantics (fun _ => "t") ⟨false, [[1]], [], 0, .waiting⟩ rfl
  have htr : runQueueTrace (fun _ => "t") [.enqueue [5], .workerWake]
      ⟨false, [[1]], [], 0, .waiting⟩ = some ⟨false, [[1], [5]], [], 0, .exited⟩ := rfl
  refine ⟨⟨rfl, rfl⟩, ⟨⟨false, [[1], [5]], [], 0, .exited⟩, htr, ?_⟩, ?_⟩
  · exact (key.1 [.enqueue [5], .workerWake] ⟨false, [[1], [5]], [], 0, .exited⟩ htr).2
  · exact key.2.1 rfl


/-- Resampling an empty input yields an empty output at any rate pair. -/
theorem resampleAudio_nil (a b : ℕ) : ResampleAudio [] a b = [] := by
  unfold ResampleAudio
  by_cases h : a = b
  · rw [if_pos h]
  · rw [if_neg h]
    simp

/-- **C10.** A capture block whose device format is neither 32-bit/IEEE-float
nor 16-bit integer PCM matches no decoding branch: the conversion returns an
empty sample sequence (after a vacuous resampling step when the device rate
differs from the target), silently dropping the audio. -/
theorem convert_unknown_format_empty (fmt : WaveFormat) (pcmData : List ℕ)
    (numFrames : ℕ)
    (htag : fmt.wFormatTag ≠ WAVE_FORMAT_IEEE_FLOAT)
    (h32 : fmt.wBitsPerSample ≠ 32) (h16 : fmt.wBitsPerSample ≠ 16) :
    ConvertPCMToFloat fmt pcmData numFrames = [] := by
  have hcond : ¬ (fmt.wFormatTag = WAVE_FORMAT_IEEE_FLOAT ∨ fmt.wBitsPerSample = 32) := by
    rintro (h | h)
    exacts [htag h, h32 h]
  simp only [ConvertPCMToFloat]
  rw [if_neg hcond, if_neg h16]
  by_cases hrate : fmt.nSamplesPerSec ≠ SAMPLE_RATE
  · rw [if_pos hrate, resampleAudio_nil]
  · rw [if_neg hrate]

/-- Witness for C10: a 24-bit PCM stereo block at 48 kHz is dropped whole. -/
theorem convert_unknown_format_empty_witness :
    (((⟨1, 2, 48000, 24⟩ : WaveFormat).wFormatTag ≠ WAVE_FORMAT_IEEE_FLOAT) ∧
      ((⟨1, 2, 48000, 24⟩ : WaveFormat).wBitsPerSample ≠ 32) ∧
      ((⟨1, 2, 48000, 24⟩ : WaveFormat).wBitsPerSample ≠ 16)) ∧
    ConvertPCMToFloat ⟨1, 2, 48000, 24⟩ [7, 8, 9] 1 = [] :=
  ⟨⟨by decide, by decide, by decide⟩,
    convert_unknown_format_empty ⟨1, 2, 48000, 24⟩ [7, 8, 9] 1
      (by decide) (by decide) (by decide)⟩


/-- `sileroChunks` of one exact window is that single window. -/
theorem sileroChunks_single :
    sileroChunks (List.replicate 512 (0 : ℚ)) = [List.replicate 512 (0 : ℚ)] := by
  rw [sileroChunks]
  rw [dif_pos (by
    rw [List.length_replicate]
    norm_num [SILERO_CHUNK_SIZE])]
  rw [List.take_replicate, List.drop_replicate]
  rw [show SILERO_CHUNK_SIZE = 512 from rfl]
  rw [min_self, Nat.sub_self, List.replicate_zero]
  rw [sileroChunks]
  rw [dif_neg (by norm_num [SILERO_CHUNK_SIZE])]


/-- Evaluating the neural classifier on one silent window with a collaborator
that increments every state entry and reports probability 0: the verdict is
silence and the state comes back incremented, not zeroed. -/
theorem isSpeechDetectedNeural_incr :
    IsSpeechDetectedNeural (fun st _ => (st.map (fun x => x + 1), 0))
        (List.replicate SILERO_STATE_SIZE 1) (List.replicate 512 (0 : ℚ))
      = (List.replicate SILERO_STATE_SIZE 2, false) := by
  unfold IsSpeechDetectedNeural
  rw [sileroChunks_single]
  simp only [List.foldl_cons, List.foldl_nil, List.map_replicate]
  have h12 : (1 : ℚ) + 1 = 2 := by norm_num
  rw [h12, max_self]
  have hd : decide ((1 : ℚ) / 2 < 0) = false := decide_eq_false (by norm_num)
  rw [hd]


/-- **C8 evidence.** `Reset` zeroes the whole recurrent state, but the
ProcessingThread's finalize block never calls it: on a concrete
silence-triggered finalization the classifier state afterwards is the
collaborator's updated state (here, all twos), not the zero state `Reset`
would produce — the LSTM state carries over into the next utterance. -/
theorem vadState_not_reset_on_finalize :
    SileroReset (List.replicate SILERO_STATE_SIZE (1 : ℚ))
        = List.replicate SILERO_STATE_SIZE 0 ∧
    (processTickNeural (fun st _ => (st.map (fun x => x + 1), 0))
        (List.replicate SILERO_STATE_SIZE 1)
        { currentState := .SPEAKING
          speechBuffer := List.replicate 4800 0
          silenceDurationSamples := 4300
          speechDurationSamples := 4800 }
        (List.replicate 512 0)).2.1.currentState = .SILENCE ∧
    (processTickNeural (fun st _ => (st.map (fun x => x + 1), 0))
        (List.replicate SILERO_STATE_SIZE 1)
        { currentState := .SPEAKING
          speechBuffer := List.replicate 4800 0
          silenceDurationSamples := 4300
          speechDurationSamples := 4800 }
        (List.replicate 512 0)).1
      ≠ SileroReset (List.replicate SILERO_STATE_SIZE 1) := by
  have hne : (List.replicate 512 (0 : ℚ)).isEmpty = false := by decide
  have hwin : ¬ ((List.replicate 512 (0 : ℚ)).length < VAD_WINDOW_SAMPLES) := by
    rw [List.length_replicate]
    norm_num [VAD_WINDOW_SAMPLES, SAMPLE_RATE, VAD_CHUNK_MS]
  have hsub : (List.replicate 512 (0 : ℚ)).length - VAD_WINDOW_SAMPLES = 0 := by
    rw [List.length_replicate]
    norm_num [VAD_WINDOW_SAMPLES, SAMPLE_RATE, VAD_CHUNK_MS]
  have hfin := step_finalize
    { currentState := .SPEAKING
      speechBuffer := List.replicate 4800 0
      silenceDurationSamples := 4300
      speechDurationSamples := 4800 }
    (List.replicate 512 0) false rfl
    (by rw [List.length_replicate]
        norm_num [VAD_WINDOW_SAMPLES, SAMPLE_RATE, VAD_CHUNK_MS])
    (Or.inr ⟨rfl, by
      rw [List.length_replicate]
      norm_num [SILENCE_THRESHOLD_SAMPLES, SAMPLE_RATE, SILENCE_THRESHOLD_MS]⟩)
  have hmin : MIN_SPEECH_SAMPLES ≤
      (({ currentState := .SPEAKING
          speechBuffer := List.replicate 4800 0
          silenceDurationSamples := 4300
          speechDurationSamples := 4800 } : SegmenterState).speechBuffer
        ++ List.replicate 512 (0 : ℚ)).length := by
    rw [List.length_append, List.length_replicate, List.length_replicate]
    norm_num [MIN_SPEECH_SAMPLES, SAMPLE_RATE, MIN_SPEECH_MS]
  have heval : processTickNeural (fun st _ => (st.map (fun x => x + 1), 0))
      (List.replicate SILERO_STATE_SIZE 1)
      { currentState := .SPEAKING
        speechBuffer := List.replicate 4800 0
        silenceDurationSamples := 4300
        speechDurationSamples := 4800 }
      (List.replicate 512 0)
      = (List.replicate SILERO_STATE_SIZE 2,
        ({ currentState := .SILENCE
           speechBuffer := []
           silenceDurationSamples := 0
           speechDurationSamples := 0 },
         some (List.replicate 4800 (0 : ℚ) ++ List.replicate 512 0))) := by
    simp only [processTickNeural]
    rw [hne]
    simp only [Bool.false_eq_true, if_false]
    rw [if_neg hwin, hsub, List.drop_zero, isSpeechDetectedNeural_incr]
    rw [hfin, if_pos hmin]
  refine ⟨?_, ?_, ?_⟩
  · simp only [SileroReset, List.length_replicate]
  · rw [heval]
  · rw [heval]
    simp only [SileroReset, List.length_replicate]
    intro h
    have h256 : SILERO_STATE_SIZE = 255 + 1 := by norm_num [SILERO_STATE_SIZE]
    rw [h256, List.replicate_succ, List.replicate_succ] at h
    injection h with h1 _
    norm_num at h1

end PerceptionEngine
